import Mathlib

/-!
Shallow embedding of the nrps-rs inference core, translated from the
repository sources (predictors/stachelhaus.rs, predictors/predictions.rs,
predictors/mod.rs, encodings/mod.rs, encodings/blin.rs, encodings/wold.rs,
svm/vectors.rs, svm/models.rs), together with theorems settling the frozen
claims about it.

Conventions of the embedding:
- Rust `String` sequences (signatures, model-file lines) are modelled as
  `List Char`; substrate/model names stay Lean `String`s.
- `f64` arithmetic is modelled exactly over `ℚ`; the claims under study are
  about lengths, control flow and exact score formulas, not rounding.
- `usize` arithmetic follows release-build semantics: subtraction wraps
  modulo 2^64; an out-of-bounds slice index is a panic.  Panics are made
  explicit through the `Outcome` type (`Option` where only a panic can
  occur); fallible code returns `Except NrpsError`.
-/

namespace NrpsRs

/-- Error enum from src/errors.rs (payloads reduced to the data they carry:
the offending text or the two mismatched lengths). -/
inductive NrpsError where
  | DimensionMismatch (first second : Nat)
  | DirError (msg : List Char)
  | FloatParserError (raw : List Char)
  | IntParserError (raw : List Char)
  | InvalidFeatureLine (line : List Char)
  | IoError (msg : List Char)
  | SignatureError (sig : List Char)
  deriving DecidableEq, Repr

deriving instance DecidableEq for Except

/-- Result of running a Rust snippet that may panic (`panics`), return a
recoverable error (`error`), or succeed (`ok`). -/
inductive Outcome (α : Type) where
  | panics
  | error (e : NrpsError)
  | ok (v : α)
  deriving DecidableEq, Repr

instance : Monad Outcome where
  pure := Outcome.ok
  bind x f :=
    match x with
    | .panics => .panics
    | .error e => .error e
    | .ok v => f v

/-- Lift an `Except` computation (no panic possible) into `Outcome`. -/
def Outcome.ofExcept : Except NrpsError α → Outcome α
  | .error e => .error e
  | .ok v => .ok v

/-! ## predictors/stachelhaus.rs: hamming_dist, extract_aa10, scores -/

/-- src/predictors/stachelhaus.rs, `hamming_dist`:
`a.chars().zip(b.chars()).filter(|t| t.0 != t.1).count()`. -/
def hamming_dist (a b : List Char) : Nat :=
  ((a.zip b).filter (fun t => t.1 ≠ t.2)).length

/-- The fixed zero-based positions projected out of the 34-residue signature
by `extract_aa10` (the match arm `5 | 6 | 9 | 12 | 14 | 16 | 21 | 29 | 30`). -/
def aa10_positions : List Nat := [5, 6, 9, 12, 14, 16, 21, 29, 30]

/-- src/predictors/stachelhaus.rs, `extract_aa10`: walk the characters with
their indices, keep the ones at `aa10_positions`, append the fixed `'K'`,
and fail with a `SignatureError` if the result is not exactly 10 long. -/
def extract_aa10 (aa34 : List Char) : Except NrpsError (List Char) :=
  let aa10 :=
    ((aa34.enum.filter (fun ic => ic.1 ∈ aa10_positions)).map Prod.snd) ++ ['K']
  if aa10.length ≠ 10 then .error (.SignatureError aa34) else .ok aa10

/-- src/predictors/stachelhaus.rs, `similarity`: `matches as f64 / len as f64`
(the `matches` parameter is renamed `num_matches`; `matches` is reserved in Lean). -/
def similarity (num_matches len : Nat) : ℚ :=
  (num_matches : ℚ) / (len : ℚ)

/-- src/predictors/stachelhaus.rs, `calculate_score`. -/
def calculate_score (primary_matches primary_len secondary_matches secondary_len : Nat) : ℚ :=
  let primary_score := similarity primary_matches primary_len
  let penalty := 1 - similarity secondary_matches secondary_len
  primary_score - penalty / 10

/-! ## predictors/predictions.rs -/

/-- The `PredictionCategory` enum (src/predictors/predictions.rs). -/
inductive PredictionCategory where
  | ThreeCluster
  | LargeCluster
  | SmallCluster
  | Single
  | Stachelhaus
  | LegacyThreeCluster
  | LegacyThreeClusterFungal
  | LegacyLargeCluster
  | LegacySmallCluster
  | LegacySingle
  deriving DecidableEq, Repr

/-- `Prediction`: a substrate name with its score. -/
structure Prediction where
  name : String
  score : ℚ
  deriving DecidableEq, Repr

/-- `StachPrediction`: the richer reference-matcher record. -/
structure StachPrediction where
  name : String
  aa10_score : ℚ
  aa10_sig : List Char
  aa34_score : ℚ
  aa34_sig : List Char
  deriving DecidableEq, Repr

/-- The 2^64 modulus of `usize` arithmetic (release builds wrap). -/
def USIZE : Nat := 2 ^ 64

/-- `n - 1` on a `usize` value `n < USIZE`, wrapping at 0. -/
def usub1 (n : Nat) : Nat := (n % USIZE + (USIZE - 1)) % USIZE

/-- `PredictionList::add`: push the new entry and re-sort (stably) descending
by score; the comparator is `b.score.partial_cmp(&a.score)`. -/
def PredictionList.add (l : List Prediction) (p : Prediction) : List Prediction :=
  (l ++ [p]).mergeSort (fun a b => decide (b.score ≤ a.score))

/-- The loop of `PredictionList::get_best_n`: keep appending entries from the
tail as long as their score is not below `acc[cutoffIdx].score`; indexing
outside `acc` is a panic (`none`). -/
def PredictionList.bestLoop (cutoffIdx : Nat) (acc : List Prediction) :
    List Prediction → Option (List Prediction)
  | [] => some acc
  | p :: rest =>
    match acc.get? cutoffIdx with
    | none => none
    | some cutoff =>
      if p.score < cutoff.score then some acc
      else PredictionList.bestLoop cutoffIdx (acc ++ [p]) rest

/-- `PredictionList::get_best_n` (src/predictors/predictions.rs lines 61-77):
take `min count len` entries, then extend with ties using index `count - 1`
into the accumulated result.  `count - 1` is `usize` arithmetic, so for
`count = 0` it wraps to `2^64 - 1` and the following index access panics
whenever the loop body runs at all. -/
def PredictionList.get_best_n (l : List Prediction) (count : Nat) :
    Option (List Prediction) :=
  let slice_end := min count l.length
  if l.length = 0 then some []
  else PredictionList.bestLoop (usub1 count) (l.take slice_end) (l.drop slice_end)

/-- `PredictionList::get_best` is `get_best_n(1)`. -/
def PredictionList.get_best (l : List Prediction) : Option (List Prediction) :=
  PredictionList.get_best_n l 1

/-- `StachPrediction`'s `partial_cmp`-induced order used by
`StachPredictionList::add`: ascending lexicographically on
`(aa10_score, aa34_score)`, then the list is reversed, i.e. the result is
descending on that pair.  We fold both steps into one stable descending
sort keyed on the pair. -/
def StachPredictionList.add (l : List StachPrediction) (p : StachPrediction) :
    List StachPrediction :=
  ((l ++ [p]).mergeSort (fun a b =>
    decide (a.aa10_score < b.aa10_score ∨
      (a.aa10_score = b.aa10_score ∧ a.aa34_score ≤ b.aa34_score)))).reverse

/-- `ADomain` (predictions.rs): the query record.  The
`HashMap<PredictionCategory, PredictionList>` is modelled as a total map
that is empty (`[]`) at absent keys, which matches the `get_mut` /
`insert`-fresh-list behaviour of `ADomain::add`. -/
structure ADomain where
  name : String
  aa34 : List Char
  predictions : PredictionCategory → List Prediction
  stach_predictions : List StachPrediction

/-- `ADomain::new`. -/
def ADomain.new (name : String) (aa34 : List Char) : ADomain :=
  ⟨name, aa34, fun _ => [], []⟩

/-- `ADomain::add`: add the prediction to the category's list (creating the
list when absent). -/
def ADomain.add (d : ADomain) (category : PredictionCategory) (p : Prediction) :
    ADomain :=
  { d with
    predictions := fun c =>
      if c = category then PredictionList.add (d.predictions c) p
      else d.predictions c }

/-! ## predictors/stachelhaus.rs: the reference-matcher scan -/

/-- One row of the reference signature database
(`StachelhausSignature` in stachelhaus.rs). -/
structure StachelhausSignature where
  aa10 : List Char
  aa34 : List Char
  winner : String
  deriving DecidableEq, Repr

/-- The running state threaded through the per-domain loop of `predict`
(stachelhaus.rs lines 25-70): the two running maxima and the two candidate
lists being populated. -/
structure ScanState where
  max_aa10_matches : Nat
  max_aa34_matches : Nat
  predictions : List Prediction
  stach_predictions : List StachPrediction

/-- The body of the `for sig in signatures` loop of `predict`
(stachelhaus.rs lines 30-69), for a query with sub-window `aa10` and full
window `aa34`. -/
def scan_step (aa10 aa34 : List Char) (st : ScanState) (sig : StachelhausSignature) :
    ScanState :=
  let aa10_matches := aa10.length - hamming_dist aa10 sig.aa10
  let aa34_matches := aa34.length - hamming_dist aa34 sig.aa34
  if aa10_matches > st.max_aa10_matches then
    { st with
      max_aa10_matches := aa10_matches
      predictions := PredictionList.add st.predictions
        ⟨sig.winner, calculate_score aa10_matches aa10.length aa34_matches aa34.length⟩
      stach_predictions := StachPredictionList.add st.stach_predictions
        ⟨sig.winner, similarity aa10_matches aa10.length, sig.aa10,
          similarity aa34_matches sig.aa34.length, sig.aa34⟩ }
  else if aa10_matches = st.max_aa10_matches ∧ aa34_matches > st.max_aa34_matches then
    { st with
      max_aa34_matches := aa34_matches
      predictions := PredictionList.add st.predictions
        ⟨sig.winner, calculate_score aa10_matches aa10.length aa34_matches aa34.length⟩
      stach_predictions := StachPredictionList.add st.stach_predictions
        ⟨sig.winner, similarity aa10_matches aa10.length, sig.aa10,
          similarity aa34_matches sig.aa34.length, sig.aa34⟩ }
  else st

/-- The initial scan state: `max_aa10_matches = 6` (hits with fewer than 7
matches are not shown) and `max_aa34_matches` starts at the same value. -/
def scan_init : ScanState := ⟨6, 6, [], []⟩

/-- The whole reference scan for one domain: fold `scan_step` over the
signature collection in order. -/
def scan (aa10 aa34 : List Char) (sigs : List StachelhausSignature) : ScanState :=
  sigs.foldl (scan_step aa10 aa34) scan_init

/-! ## encodings/mod.rs: per-symbol table lookup -/

/-- `normalise` (encodings/mod.rs): `(value - mean) / stdev`. -/
def normalise (value mean stdev : ℚ) : ℚ :=
  (value - mean) / stdev

/-- `get_value` (encodings/mod.rs lines 39-47): look the symbol up in the
table and normalise it; for an absent symbol either return the table's mean
directly (`use_mean`) or normalise a raw 0. -/
def get_value (map : Char → Option ℚ) (c : Char) (mean stdev : ℚ)
    (use_mean : Bool) : ℚ :=
  match map c with
  | some value => normalise value mean stdev
  | none => if use_mean then mean else normalise 0 mean stdev

/-- One lookup table with its normalisation constants and unknown-symbol
policy flag, i.e. the argument bundle every `get_value` call site fixes. -/
structure AxisTable where
  map : Char → Option ℚ
  mean : ℚ
  stdev : ℚ
  use_mean : Bool

/-- The `get_value` call for one axis table. -/
def AxisTable.value (t : AxisTable) (c : Char) : ℚ :=
  get_value t.map c t.mean t.stdev t.use_mean

/-- The phf map used by the `get_value` unit test in encodings/mod.rs
(`TEST_MAP`: A => 0.0, R => 4.0, K => 2.0, with mean 2.0 and stdev 2.0). -/
def TEST_MAP : Char → Option ℚ
  | 'A' => some 0
  | 'R' => some 4
  | 'K' => some 2
  | _ => none

/-! ## encodings/wold.rs -/

/-- `HYDROPHOBICITY_MAP` of encodings/wold.rs. -/
def wold_HYDROPHOBICITY_MAP : Char → Option ℚ
  | 'A' => some 0.07
  | 'R' => some 2.88
  | 'N' => some 3.22
  | 'D' => some 3.64
  | 'C' => some 0.71
  | 'Q' => some 2.18
  | 'E' => some 3.08
  | 'G' => some 2.23
  | 'H' => some 2.41
  | 'I' => some (-4.44)
  | 'L' => some (-4.19)
  | 'K' => some 2.84
  | 'M' => some (-2.49)
  | 'F' => some (-4.92)
  | 'P' => some (-1.22)
  | 'S' => some 1.96
  | 'T' => some 0.92
  | 'W' => some (-4.75)
  | 'Y' => some (-1.39)
  | 'V' => some (-2.69)
  | _ => none

def wold_HYDROPHOBICITY_MEAN : ℚ := 0.001923076923076976
def wold_HYDROPHOBICITY_STDEV : ℚ := 2.6160275521955336

/-- `SIZE_MAP` of encodings/wold.rs. -/
def wold_SIZE_MAP : Char → Option ℚ
  | 'A' => some (-1.73)
  | 'R' => some 2.52
  | 'N' => some 1.45
  | 'D' => some 1.13
  | 'C' => some (-0.97)
  | 'Q' => some 0.53
  | 'E' => some 0.39
  | 'G' => some (-5.36)
  | 'H' => some 1.74
  | 'I' => some (-1.68)
  | 'L' => some (-1.03)
  | 'K' => some 1.41
  | 'M' => some (-0.27)
  | 'F' => some 1.3
  | 'P' => some 0.88
  | 'S' => some (-1.63)
  | 'T' => some (-2.09)
  | 'W' => some 3.65
  | 'Y' => some 2.32
  | 'V' => some (-2.53)
  | _ => none

def wold_SIZE_MEAN : ℚ := 0.0011538461538461635
def wold_SIZE_STDEV : ℚ := 1.8589595518420015

/-- `POLARITY_CHARGE_MAP` of encodings/wold.rs. -/
def wold_POLARITY_CHARGE_MAP : Char → Option ℚ
  | 'A' => some 0.09
  | 'R' => some (-3.44)
  | 'N' => some 0.84
  | 'D' => some 2.36
  | 'C' => some 4.13
  | 'Q' => some (-1.14)
  | 'E' => some (-0.07)
  | 'G' => some 0.3
  | 'H' => some 1.11
  | 'I' => some (-1.03)
  | 'L' => some (-0.98)
  | 'K' => some (-3.14)
  | 'M' => some (-0.41)
  | 'F' => some 0.45
  | 'P' => some 2.23
  | 'S' => some 0.57
  | 'T' => some (-1.4)
  | 'W' => some 0.85
  | 'Y' => some 0.01
  | 'V' => some (-1.29)
  | _ => none

def wold_POLARITY_CHARGE_MEAN : ℚ := 0.0015384615384615096
def wold_POLARITY_CHARGE_STDEV : ℚ := 1.545268112160973

namespace wold

/-- `wold::encode_one`: the three axis values (all with `use_mean = false`). -/
def encode_one (c : Char) : List ℚ :=
  [get_value wold_HYDROPHOBICITY_MAP c wold_HYDROPHOBICITY_MEAN wold_HYDROPHOBICITY_STDEV false,
   get_value wold_SIZE_MAP c wold_SIZE_MEAN wold_SIZE_STDEV false,
   get_value wold_POLARITY_CHARGE_MAP c wold_POLARITY_CHARGE_MEAN wold_POLARITY_CHARGE_STDEV false]

/-- `wold::encode`: map `encode_one` over the characters and fold the parts
together with append. -/
def encode (sequence : List Char) : List ℚ :=
  (sequence.map encode_one).foldl (fun acc part => acc ++ part) []

end wold

namespace rausch

/-- Modelled from the spec: `src/encodings/rausch.rs` is not under `src/`
(only its module declaration and its callers are).  Per spec §4.1 every
scheme has stride 3, one real value per physicochemical axis; the Rausch
scheme has three axes, one of which exists in a legacy and a current
normalisation-table variant selected by category.  The table contents are
"opaque constant data providers" excluded from the spec's scope (§1), so
the three axis tables are parameters here; the legacy/current variant is
just a different choice of table parameter. -/
def encode_one (a1 a2 a3 : AxisTable) (c : Char) : List ℚ :=
  [a1.value c, a2.value c, a3.value c]

/-- Modelled from the spec: the per-sequence encoder of the Rausch scheme,
concatenating `encode_one` per symbol in sequence order (spec §4.1). -/
def encode (a1 a2 a3 : AxisTable) (sequence : List Char) : List ℚ :=
  (sequence.map (encode_one a1 a2 a3)).foldl (fun acc part => acc ++ part) []

/-- Arbitrary representative axis tables for the Rausch scheme, used only to
instantiate closed concrete statements; no claim below depends on the table
contents (spec §1 places them out of scope). -/
def axis1 : AxisTable := ⟨TEST_MAP, 2, 2, false⟩

def axis2 : AxisTable := ⟨TEST_MAP, 2, 2, false⟩

def axis3 : AxisTable := ⟨TEST_MAP, 2, 2, true⟩

end rausch

namespace blin

/-- `blin::encode_one` (encodings/blin.rs lines 19-24): the concatenation of
`rausch::encode_one` and `wold::encode_one` for the symbol. -/
def encode_one (a1 a2 a3 : AxisTable) (c : Char) : List ℚ :=
  rausch.encode_one a1 a2 a3 c ++ wold.encode_one c

/-- `blin::encode`: map `encode_one` over the characters and fold the parts
together with append. -/
def encode (a1 a2 a3 : AxisTable) (sequence : List Char) : List ℚ :=
  (sequence.map (encode_one a1 a2 a3)).foldl (fun acc part => acc ++ part) []

end blin

/-- The `FeatureEncoding` enum (encodings/mod.rs). -/
inductive FeatureEncoding where
  | Blin
  | Rausch
  | Wold
  deriving DecidableEq, Repr

/-- `encode` (encodings/mod.rs): dispatch on the scheme.  The category-based
selection between the legacy and current Rausch variant only swaps one of
the three Rausch axis tables, which the `a1 a2 a3` parameters range over
(the referenced legacy category names do not exist in the
predictions.rs snapshot of this tree). -/
def encode (a1 a2 a3 : AxisTable) (sequence : List Char) :
    FeatureEncoding → List ℚ
  | .Blin => blin.encode a1 a2 a3 sequence
  | .Rausch => rausch.encode a1 a2 a3 sequence
  | .Wold => wold.encode sequence

/-! ## Text helpers shared by the svm parsers

These model the exact Rust string operations used by svm/vectors.rs and
svm/models.rs over `List Char`. -/

/-- Rust `str::split(pred)`: split at every matching character, keeping empty
pieces (so `"a  b"` yields an empty middle piece and `""` yields `[""]`). -/
def splitOnP (p : Char → Bool) (l : List Char) : List (List Char) :=
  l.foldr
    (fun c acc =>
      match acc with
      | [] => [[c]]
      | h :: t => if p c then [] :: h :: t else (c :: h) :: t)
    [[]]

/-- Rust `str::splitn(2, sep)`: the piece before the first separator, and if a
separator occurs, the unsplit remainder after it. -/
def splitn2 (sep : Char) (l : List Char) : List (List Char) :=
  let a := l.takeWhile (fun c => c ≠ sep)
  match l.dropWhile (fun c => c ≠ sep) with
  | [] => [a]
  | _ :: rest => [a, rest]

/-- Rust `str::trim_end`. -/
def rtrim (l : List Char) : List Char :=
  (l.reverse.dropWhile (fun c => c.isWhitespace)).reverse

/-- Rust `str::trim`. -/
def trimBoth (l : List Char) : List Char :=
  (rtrim l).dropWhile (fun c => c.isWhitespace)

/-- Numeric value of a digit run. -/
def digitsVal (cs : List Char) : Nat :=
  cs.foldl (fun a c => 10 * a + (c.toNat - 48)) 0

/-- A non-empty all-digit run parsed as a `Nat`. -/
def digitsToNat? (cs : List Char) : Option Nat :=
  if cs ≠ [] ∧ cs.all (fun c => c.isDigit) then some (digitsVal cs) else none

/-- Rust `str::parse::<usize>` on the digit-only subset the model files use
(no leading `+`); values not below 2^64 overflow `usize` and fail. -/
def parse_usize (s : List Char) : Except NrpsError Nat :=
  match digitsToNat? s with
  | some n => if n < USIZE then .ok n else .error (.IntParserError s)
  | none => .error (.IntParserError s)

/-- An unsigned decimal numeral (`"12"`, `"0.553"`) as an exact rational. -/
def decToRat? (cs : List Char) : Option ℚ :=
  let ip := cs.takeWhile (fun c => c.isDigit)
  match cs.dropWhile (fun c => c.isDigit) with
  | [] => (digitsToNat? ip).map (fun i => (i : ℚ))
  | '.' :: fp =>
    match digitsToNat? ip, digitsToNat? fp with
    | some i, some f => some ((i : ℚ) + (f : ℚ) / (10 : ℚ) ^ fp.length)
    | _, _ => none
  | _ => none

/-- Rust `str::parse::<f64>` on the plain signed decimal subset the model
files use (values modelled exactly as rationals). -/
def parse_f64 (s : List Char) : Except NrpsError ℚ :=
  let q :=
    match s with
    | '-' :: rest => (decToRat? rest).map (fun v => -v)
    | _ => decToRat? s
  match q with
  | some v => .ok v
  | none => .error (.FloatParserError s)

/-! ## svm/vectors.rs -/

/-- `SupportVector`: a dense vector and its signed weight. -/
structure SupportVector where
  values : List ℚ
  yalpha : ℚ
  deriving DecidableEq, Repr

/-- `dot` (svm/vectors.rs): dimension-checked dot product. -/
def dot (a b : List ℚ) : Except NrpsError ℚ :=
  if a.length ≠ b.length then .error (.DimensionMismatch a.length b.length)
  else .ok ((a.zip b).foldl (fun sum p => sum + p.1 * p.2) 0)

/-- `element_subtract` (svm/vectors.rs): dimension-checked pointwise
difference. -/
def element_subtract (a b : List ℚ) : Except NrpsError (List ℚ) :=
  if a.length ≠ b.length then .error (.DimensionMismatch a.length b.length)
  else .ok ((a.zip b).map (fun p => p.1 - p.2))

/-- `Vector::square_dist`. -/
def square_dist (a b : List ℚ) : Except NrpsError ℚ := do
  let temp ← element_subtract a b
  dot temp temp

/-- The token loop of `SupportVector::from_line` (svm/vectors.rs lines
60-71).  Per token: stop at a literal `"#"`; split once on `':'`; parse the
1-based index (`usize`, so `parse - 1` wraps at 0) and reject it when
`idx > dimension - 1` (also `usize` arithmetic); then parse the value and
store it.  A token without `':'` that passes the index check panics on the
missing second piece, and a store outside the vector panics. -/
def sv_loop (line : List Char) (dimension : Nat) (values : List ℚ) :
    List (List Char) → Outcome (List ℚ)
  | [] => .ok values
  | t :: rest =>
    if t = ['#'] then .ok values
    else
      match splitn2 ':' t with
      | [] => .panics
      | [a] => do
        let n ← Outcome.ofExcept (parse_usize a)
        if usub1 n > usub1 dimension then Outcome.error (.InvalidFeatureLine line)
        else .panics
      | a :: b :: _ => do
        let n ← Outcome.ofExcept (parse_usize a)
        let idx := usub1 n
        if idx > usub1 dimension then Outcome.error (.InvalidFeatureLine line)
        else do
          let value ← Outcome.ofExcept (parse_f64 b)
          if idx < values.length then sv_loop line dimension (values.set idx value) rest
          else .panics

/-- `SupportVector::from_line` (svm/vectors.rs lines 52-74): dense vector of
`dimension` zeroes, whitespace-split tokens, leading weight, then the
`idx:val` token loop. -/
def SupportVector.from_line (line : List Char) (dimension : Nat) :
    Outcome SupportVector :=
  let values := List.replicate dimension (0 : ℚ)
  let parts := splitOnP (fun c => c.isWhitespace) line
  if parts.length < 2 then .error (.InvalidFeatureLine line)
  else do
    let yalpha ← Outcome.ofExcept (parse_f64 (parts.headD []))
    let vs ← sv_loop line dimension values parts.tail
    pure ⟨vs, yalpha⟩

/-! ## svm/kernels.rs and svm/models.rs -/

/-- The `KernelType` enum (svm/models.rs). -/
inductive KernelType where
  | Linear
  | Polynomial
  | RBF
  | Sigmoid
  | Custom
  deriving DecidableEq, Repr

/-- The two `Box<dyn Kernel>` implementations that `SVMlightModel::new` can
construct (svm/kernels.rs): `LinearKernel` and `RBFKernel { gamma }`. -/
inductive KernelImpl where
  | linear
  | rbf (gamma : ℚ)
  deriving DecidableEq, Repr

/-- `LinearKernel::compute` (svm/kernels.rs): `vec1.similarity(vec2)`, the
dimension-checked dot product.  (`RBFKernel::compute` needs the real
exponential and stays abstract: theorems below quantify over the kernel
evaluation function, mirroring the `dyn Kernel` indirection.) -/
def computeLinear (sv : SupportVector) (vec : List ℚ) : Except NrpsError ℚ :=
  dot sv.values vec

/-- `SVMlightModel` (svm/models.rs). -/
structure SVMlightModel where
  name : String
  category : PredictionCategory
  vectors : List SupportVector
  bias : ℚ
  encoding : FeatureEncoding
  kernel_type : KernelType
  kernel : KernelImpl
  deriving DecidableEq, Repr

/-- `SVMlightModel::new`: pick the kernel object from the kernel type;
`unimplemented!()` (a panic, here `none`) for the other kernel kinds. -/
def SVMlightModel.new (name : String) (category : PredictionCategory)
    (vectors : List SupportVector) (bias : ℚ) (encoding : FeatureEncoding)
    (kernel_type : KernelType) (gamma : ℚ) : Option SVMlightModel :=
  match kernel_type with
  | .Linear => some ⟨name, category, vectors, bias, encoding, kernel_type, .linear⟩
  | .RBF => some ⟨name, category, vectors, bias, encoding, kernel_type, .rbf gamma⟩
  | _ => none

/-- `SVMlightModel::predict` (svm/models.rs lines 59-64): fold the weighted
kernel evaluations over the support vectors (`try_fold`, so the first kernel
error aborts), then subtract the bias.  `kernelEval` interprets the model's
`Box<dyn Kernel>`. -/
def SVMlightModel.predict
    (kernelEval : KernelImpl → SupportVector → List ℚ → Except NrpsError ℚ)
    (m : SVMlightModel) (vec : List ℚ) : Except NrpsError ℚ := do
  let res ← m.vectors.foldlM
    (fun sum svec => do
      let k ← kernelEval m.kernel svec vec
      pure (sum + svec.yalpha * k))
    (0 : ℚ)
  pure (res - m.bias)

/-- `parse_int` (svm/models.rs lines 142-151) with the line iterator made
explicit: take the next line, drop a trailing `#` comment, trim, parse. -/
def parse_int_ln (lines : List (List Char)) :
    Except NrpsError (Nat × List (List Char)) :=
  match lines with
  | [] => .error (.InvalidFeatureLine "Failed to read line".toList)
  | l :: rest => do
    let n ← parse_usize (trimBoth ((splitn2 '#' (rtrim l)).headD []))
    pure (n, rest)

/-- `parse_float` (svm/models.rs lines 131-140), same shape as
`parse_int_ln`. -/
def parse_float_ln (lines : List (List Char)) :
    Except NrpsError (ℚ × List (List Char)) :=
  match lines with
  | [] => .error (.InvalidFeatureLine "Failed to read line".toList)
  | l :: rest => do
    let v ← parse_f64 (trimBoth ((splitn2 '#' (rtrim l)).headD []))
    pure (v, rest)

/-- The `while let Some(line_res) = line_iter.next()` loop of `from_handle`
(svm/models.rs lines 114-117): every remaining line is parsed as a support
vector. -/
def read_vectors (dimension : Nat) : List (List Char) → Outcome (List SupportVector)
  | [] => .ok []
  | l :: rest => do
    let sv ← SupportVector.from_line l dimension
    let svs ← read_vectors dimension rest
    pure (sv :: svs)

/-- `SVMlightModel::from_handle` (svm/models.rs lines 75-128) over the list
of input lines: skip the header; kernel-type code (0 = linear, 2 = RBF,
anything else is a fatal parse error); skip; gamma; three skips; feature
dimension; skip; declared support-vector count; bias; then the
read-everything vector loop.  The declared count is used only as
`Vec::with_capacity` in the source. -/
def SVMlightModel.from_handle (lines : List (List Char)) (name : String)
    (category : PredictionCategory) (encoding : FeatureEncoding) :
    Outcome SVMlightModel := do
  let lines1 := lines.drop 1
  let (ktcode, lines2) ← Outcome.ofExcept (parse_int_ln lines1)
  let kernel_type ←
    match ktcode with
    | 0 => pure KernelType.Linear
    | 2 => pure KernelType.RBF
    | _ => Outcome.error (.InvalidFeatureLine "Failed to match kernel type".toList)
  let lines3 := lines2.drop 1
  let (gamma, lines4) ← Outcome.ofExcept (parse_float_ln lines3)
  let lines5 := lines4.drop 3
  let (dimensions, lines6) ← Outcome.ofExcept (parse_int_ln lines5)
  let lines7 := lines6.drop 1
  let (num_vecs, lines8) ← Outcome.ofExcept (parse_int_ln lines7)
  let (bias, lines9) ← Outcome.ofExcept (parse_float_ln lines8)
  let _capacity := num_vecs
  let vectors ← read_vectors dimensions lines9
  match SVMlightModel.new name category vectors bias encoding kernel_type gamma with
  | some m => pure m
  | none => .panics

/-! ## predictors/mod.rs: the per-(model, domain) classifier step -/

/-- The body of the nested loops of `Predictor::predict` (predictors/mod.rs
lines 23-31) for one model and one domain: score the domain's encoded
signature (`predict_seq`, whose feature encoding is `enc`) and add a
prediction under the model's name and category exactly when the score is
strictly positive. -/
def Predictor.predict_step
    (kernelEval : KernelImpl → SupportVector → List ℚ → Except NrpsError ℚ)
    (enc : List Char → List ℚ) (m : SVMlightModel) (d : ADomain) :
    Except NrpsError ADomain := do
  let score ← m.predict kernelEval (enc d.aa34)
  if score > 0 then pure (d.add m.category ⟨m.name, score⟩) else pure d

/-! ## Concrete inputs used by closed statements -/

/-- The 34-residue signature from the repository's `test_extract_aa10`. -/
def test_aa34 : List Char := "HAKSFDMSVVQCIACMGGETNCYGPTEITAAATF".toList

/-- The same signature extended by one residue: 35 symbols. -/
def test_aa35 : List Char := test_aa34 ++ ['X']

/-- The sub-window of `test_aa34` (also from the repository's test). -/
def ex_aa10 : List Char := "DMVICGCAAK".toList

/-- A reference entry matching `ex_aa10` in 9 of 10 positions and
`test_aa34` in all 34 positions. -/
def ex_sig : StachelhausSignature :=
  ⟨"DMVICGCAAX".toList, test_aa34, "ala"⟩

/-- The prediction list of the repository's `get_best` test, built through
`add` with scores 42, 42, 23, 17. -/
def c5_list : List Prediction :=
  PredictionList.add
    (PredictionList.add
      (PredictionList.add
        (PredictionList.add [] ⟨"Leu", 42⟩)
        ⟨"Ile", 42⟩)
      ⟨"Ala", 23⟩)
    ⟨"D-Ala", 17⟩

/-- A one-entry prediction list. -/
def c4_list : List Prediction := [⟨"Ala", 42⟩]

/-- A model stream whose header declares 2 support vectors but that ends
right after the bias line, before any support-vector line. -/
def c9_lines : List (List Char) :=
  ["SVM-light Version V6.02".toList,
   "0 # kernel type".toList,
   "3 # kernel parameter -d".toList,
   "0.015 # kernel parameter -g".toList,
   "1 # kernel parameter -s".toList,
   "1 # kernel parameter -r".toList,
   "empty# kernel parameter -u".toList,
   "3 # highest feature index".toList,
   "4 # number of training documents".toList,
   "2 # number of support vectors plus 1".toList,
   "0.1 # threshold b".toList]

/-- The support-vector line of the repository's `test_from_line`. -/
def test_sv_line : List Char :=
  "10 1:-1.6023999 3:-0.55470002 5:-0.63520002 # some junk".toList

/-- A support-vector line with the single pair `1:2.0`. -/
def c8_line : List Char := "1 1:2.0".toList

/-- The `test_from_line` support-vector line without its trailing comment. -/
def c8_ok_line : List Char := "10 1:-1.6023999 3:-0.55470002 5:-0.63520002".toList

/-- A linear one-support-vector model used to instantiate classifier
statements. -/
def c7_model : SVMlightModel :=
  ⟨"c7", .ThreeCluster, [⟨[1, 0, 1], 1⟩], 0, .Wold, .Linear, .linear⟩

/-- A kernel evaluation that interprets `KernelImpl.linear` as
`LinearKernel::compute` (the only kind the concrete statements use). -/
def linEval : KernelImpl → SupportVector → List ℚ → Except NrpsError ℚ :=
  fun _ sv vec => computeLinear sv vec

/-- A Boolean check that a token is a well-formed `idx:val` pair parsing to
`p` (used as the hypothesis shape of the amended support-vector-line
theorem). -/
def tokenParses (t : List Char) (p : Nat × ℚ) : Bool :=
  decide (t ≠ ['#']) &&
    (match splitn2 ':' t with
     | [a, b] => decide (parse_usize a = .ok p.1) && decide (parse_f64 b = .ok p.2)
     | _ => false)

/-! ## Helper lemmas -/

@[simp]
theorem Outcome.bind_ok (a : α) (f : α → Outcome β) :
    (Outcome.ok a >>= f) = f a := rfl

@[simp]
theorem Outcome.bind_error (e : NrpsError) (f : α → Outcome β) :
    (Outcome.error e >>= f : Outcome β) = .error e := rfl

@[simp]
theorem Outcome.bind_panics (f : α → Outcome β) :
    (Outcome.panics >>= f : Outcome β) = .panics := rfl

@[simp]
theorem Outcome.ofExcept_ok (a : α) :
    Outcome.ofExcept (Except.ok a : Except NrpsError α) = .ok a := rfl

@[simp]
theorem Outcome.ofExcept_error (e : NrpsError) :
    Outcome.ofExcept (Except.error e : Except NrpsError α) = .error e := rfl

theorem usub1_of_pos {n : Nat} (h1 : 1 ≤ n) (h2 : n < USIZE) :
    usub1 n = n - 1 := by
  unfold usub1
  rw [Nat.mod_eq_of_lt h2]
  have he : n + (USIZE - 1) = USIZE + (n - 1) := by
    have : 1 ≤ USIZE := by norm_num [USIZE]
    omega
  rw [he, Nat.add_mod_left]
  exact Nat.mod_eq_of_lt (by omega)

theorem usub1_zero : usub1 0 = USIZE - 1 := by
  unfold usub1
  rw [Nat.zero_mod, Nat.zero_add]
  exact Nat.mod_eq_of_lt (by norm_num [USIZE])

theorem hamming_dist_cons (x y : Char) (as bs : List Char) :
    hamming_dist (x :: as) (y :: bs)
      = (if x = y then 0 else 1) + hamming_dist as bs := by
  simp only [hamming_dist, List.zip_cons_cons, List.filter_cons]
  by_cases h : x = y <;> simp [h, Nat.add_comm]

/-- C10: `hamming_dist` is total on arbitrary pairs of strings, counts the
positions below the shorter length where the strings differ, is symmetric,
vanishes on identical strings, and vanishes between a string and any
extension of it. -/
theorem hamming_dist_spec (a b ext : List Char) :
    hamming_dist a b
        = ((List.range (min a.length b.length)).filter
            (fun i => a.get? i ≠ b.get? i)).length
      ∧ hamming_dist a b = hamming_dist b a
      ∧ hamming_dist a a = 0
      ∧ hamming_dist a (a ++ ext) = 0 := by
  refine ⟨?_, ?_, ?_, ?_⟩
  · induction a generalizing b with
    | nil => simp [hamming_dist]
    | cons x as ih =>
      cases b with
      | nil => simp [hamming_dist]
      | cons y bs =>
        rw [hamming_dist_cons, ih bs]
        have hmin : min (x :: as).length (y :: bs).length
            = min as.length bs.length + 1 := by
          simp [Nat.succ_min_succ]
        rw [hmin, List.range_succ_eq_map, List.filter_cons, List.filter_map]
        by_cases h : x = y <;>
          simp [h, Function.comp_def, Nat.add_comm]
  · induction a generalizing b with
    | nil => cases b <;> simp [hamming_dist]
    | cons x as ih =>
      cases b with
      | nil => simp [hamming_dist]
      | cons y bs =>
        rw [hamming_dist_cons, hamming_dist_cons, ih bs]
        by_cases h : x = y
        · rw [if_pos h, if_pos h.symm]
        · rw [if_neg h, if_neg (Ne.symm h)]
  · induction a with
    | nil => simp [hamming_dist]
    | cons x as ih => rw [hamming_dist_cons, ih]; simp
  · induction a with
    | nil => simp [hamming_dist]
    | cons x as ih =>
      have : (x :: as) ++ ext = x :: (as ++ ext) := rfl
      rw [this, hamming_dist_cons, ih]; simp

theorem extract_aa10_picked_length (s : List Char) :
    ((s.enum.filter (fun ic => decide (ic.1 ∈ aa10_positions))).map Prod.snd).length
      = (List.range s.length).countP (fun i => decide (i ∈ aa10_positions)) := by
  rw [List.length_map, ← List.countP_eq_length_filter]
  have h1 : (List.range s.length).countP (fun i => decide (i ∈ aa10_positions))
      = (s.enum.map Prod.fst).countP (fun i => decide (i ∈ aa10_positions)) := by
    rw [List.enum_map_fst]
  rw [h1, List.countP_map]
  rfl

theorem range_countP_positions_of_ge {n : Nat} (hn : 31 ≤ n) :
    (List.range n).countP (fun i => decide (i ∈ aa10_positions)) = 9 := by
  induction n, hn using Nat.le_induction with
  | base => decide
  | succ n hn ih =>
    rw [List.range_succ, List.countP_append, ih]
    have hmem : ¬ (n ∈ aa10_positions) := by
      intro hm
      simp [aa10_positions] at hm
      rcases hm with h | h | h | h | h | h | h | h | h <;> omega
    simp [List.countP_cons, hmem]

theorem range_countP_positions_of_lt {n : Nat} (hn : n < 31) :
    (List.range n).countP (fun i => decide (i ∈ aa10_positions)) ≠ 9 := by
  have h : ∀ m, m < 31 →
      (List.range m).countP (fun i => decide (i ∈ aa10_positions)) ≠ 9 := by decide
  exact h n hn

/-- C3 (counterexample): a 35-symbol input, whose length is not 34, is
accepted by `extract_aa10` (it does not fail with a signature-format
error). -/
theorem extract_aa10_not_34_succeeds :
    test_aa35.length ≠ 34
      ∧ extract_aa10 test_aa35 = .ok "DMVICGCAAK".toList := by decide

/-- C3 (amended): `extract_aa10` returns exactly 10 symbols for every input
with at least 31 symbols (in particular for every 34-symbol input), and
fails with a signature-format error exactly on inputs of at most 30
symbols; the length-34 check claimed by the spec does not exist. -/
theorem extract_aa10_amended (s : List Char) :
    (31 ≤ s.length → ∃ r, extract_aa10 s = .ok r ∧ r.length = 10)
      ∧ (s.length < 31 → extract_aa10 s = .error (.SignatureError s)) := by
  have hlen :
      (((s.enum.filter (fun ic => decide (ic.1 ∈ aa10_positions))).map Prod.snd)
        ++ ['K']).length
      = (List.range s.length).countP (fun i => decide (i ∈ aa10_positions)) + 1 := by
    rw [List.length_append, extract_aa10_picked_length]
    rfl
  constructor
  · intro h
    have hlen10 :
        (((s.enum.filter (fun ic => decide (ic.1 ∈ aa10_positions))).map Prod.snd)
          ++ ['K']).length = 10 := by
      rw [hlen, range_countP_positions_of_ge h]
    refine ⟨((s.enum.filter (fun ic => decide (ic.1 ∈ aa10_positions))).map Prod.snd)
        ++ ['K'], ?_, hlen10⟩
    simp only [extract_aa10]
    rw [if_neg]
    simp [hlen10]
  · intro h
    simp only [extract_aa10]
    rw [if_pos]
    rw [hlen]
    have := range_countP_positions_of_lt h
    omega

/-- C3 (witness): the amended theorem applied to the repository's own test
inputs, the 34-symbol signature and the 17-symbol string. -/
theorem extract_aa10_amended_w :
    (∃ r, extract_aa10 test_aa34 = .ok r ∧ r.length = 10)
      ∧ extract_aa10 "THISISWAYTOOSHORT".toList
          = .error (.SignatureError "THISISWAYTOOSHORT".toList) :=
  ⟨(extract_aa10_amended test_aa34).1 (by decide),
   (extract_aa10_amended "THISISWAYTOOSHORT".toList).2 (by decide)⟩

/-- C6 (counterexample): the `use_mean` policy returns the raw table mean,
not a normalized 0: on the repository's own test table (mean 2, stdev 2)
the absent symbol `'-'` encodes to 2, which is not 0. -/
theorem get_value_use_mean_not_zero :
    TEST_MAP '-' = none
      ∧ get_value TEST_MAP '-' 2 2 true = 2
      ∧ (2 : ℚ) ≠ 0 := by decide

/-- C6 (amended): for a symbol absent from the table, the `use_mean` policy
returns the table's raw mean itself (normalized 0 only in the special case
`mean = 0`), and the other policy returns a raw 0 normalized through the
table's mean and stdev, i.e. `(0 - mean) / stdev`. -/
theorem get_value_unknown (map : Char → Option ℚ) (c : Char) (mean stdev : ℚ)
    (h : map c = none) :
    get_value map c mean stdev true = mean
      ∧ get_value map c mean stdev false = (0 - mean) / stdev := by
  simp [get_value, normalise, h]

/-- C6 (witness): the amended theorem applied to the repository's test
table at the absent symbol `'-'`. -/
theorem get_value_unknown_w :
    get_value TEST_MAP '-' 2 2 true = 2
      ∧ get_value TEST_MAP '-' 2 2 false = (0 - 2) / 2 :=
  get_value_unknown TEST_MAP '-' 2 2 rfl

/-- C4 (counterexample): `get_best_n(0)` on a non-empty list panics (the
`count - 1` index wraps and the index access is out of bounds), rather than
returning an empty sequence. -/
theorem get_best_n_zero_panics :
    PredictionList.get_best_n c4_list 0 = none := by decide

/-- C4 (amended): `get_best_n` on an empty list returns an empty sequence
for every count, but `get_best_n(0)` on a non-empty list panics through an
out-of-bounds index (`count - 1` wraps to 2^64 - 1; the CLI clamps its
count to at least 1, so its callers avoid this case). -/
theorem get_best_n_amended (l : List Prediction) (count : Nat) :
    (l = [] → PredictionList.get_best_n l count = some [])
      ∧ (l ≠ [] → PredictionList.get_best_n l 0 = none) := by
  constructor
  · rintro rfl
    simp [PredictionList.get_best_n]
  · intro h
    cases l with
    | nil => exact absurd rfl h
    | cons p rest =>
      simp [PredictionList.get_best_n, PredictionList.bestLoop]

/-- C4 (witness): the amended theorem applied to the empty list with count 7
and to a concrete one-entry list with count 0. -/
theorem get_best_n_amended_w :
    PredictionList.get_best_n [] 7 = some []
      ∧ PredictionList.get_best_n c4_list 0 = none :=
  ⟨(get_best_n_amended [] 7).1 rfl,
   (get_best_n_amended c4_list 0).2 (by simp [c4_list])⟩

/-- C1 (counterexample): a reference entry with 9 primary matches (strictly
above the running best of 6) and 34 secondary matches leaves
`max_aa34_matches` at 6 instead of updating it to 34: the strictly-better
branch does not touch the secondary running maximum. -/
theorem scan_step_keeps_secondary :
    (ex_aa10.length - hamming_dist ex_aa10 ex_sig.aa10 = 9
        ∧ 9 > scan_init.max_aa10_matches)
      ∧ test_aa34.length - hamming_dist test_aa34 ex_sig.aa34 = 34
      ∧ (scan_step ex_aa10 test_aa34 scan_init ex_sig).max_aa10_matches = 9
      ∧ (scan_step ex_aa10 test_aa34 scan_init ex_sig).max_aa34_matches = 6
      ∧ (6 : Nat) ≠ 34 := by decide

/-- C1 (amended): for every entry whose `primary_matches` strictly exceeds
the running `best_primary`, the matcher updates `best_primary` to
`primary_matches` and records a candidate in both lists, but leaves
`best_secondary` unchanged (only the equal-primary tie-break branch updates
it). -/
theorem scan_step_strict_improvement (aa10 aa34 : List Char) (st : ScanState)
    (sig : StachelhausSignature)
    (h : aa10.length - hamming_dist aa10 sig.aa10 > st.max_aa10_matches) :
    scan_step aa10 aa34 st sig =
      { max_aa10_matches := aa10.length - hamming_dist aa10 sig.aa10
        max_aa34_matches := st.max_aa34_matches
        predictions := PredictionList.add st.predictions
          ⟨sig.winner,
            calculate_score (aa10.length - hamming_dist aa10 sig.aa10) aa10.length
              (aa34.length - hamming_dist aa34 sig.aa34) aa34.length⟩
        stach_predictions := StachPredictionList.add st.stach_predictions
          ⟨sig.winner,
            similarity (aa10.length - hamming_dist aa10 sig.aa10) aa10.length,
            sig.aa10,
            similarity (aa34.length - hamming_dist aa34 sig.aa34) sig.aa34.length,
            sig.aa34⟩ } := by
  simp only [scan_step]
  rw [if_pos h]

/-- C1 (witness): the amended theorem applied to the concrete query and
reference entry of the counterexample. -/
theorem scan_step_strict_improvement_w :
    scan_step ex_aa10 test_aa34 scan_init ex_sig =
      { max_aa10_matches := ex_aa10.length - hamming_dist ex_aa10 ex_sig.aa10
        max_aa34_matches := scan_init.max_aa34_matches
        predictions := PredictionList.add scan_init.predictions
          ⟨ex_sig.winner,
            calculate_score (ex_aa10.length - hamming_dist ex_aa10 ex_sig.aa10)
              ex_aa10.length
              (test_aa34.length - hamming_dist test_aa34 ex_sig.aa34)
              test_aa34.length⟩
        stach_predictions := StachPredictionList.add scan_init.stach_predictions
          ⟨ex_sig.winner,
            similarity (ex_aa10.length - hamming_dist ex_aa10 ex_sig.aa10)
              ex_aa10.length,
            ex_sig.aa10,
            similarity (test_aa34.length - hamming_dist test_aa34 ex_sig.aa34)
              ex_sig.aa34.length,
            ex_sig.aa34⟩ } :=
  scan_step_strict_improvement ex_aa10 test_aa34 scan_init ex_sig (by decide)

theorem encode_fold_length {f : Char → List ℚ} {k : Nat}
    (hf : ∀ c, (f c).length = k) (s : List Char) :
    ∀ init : List ℚ,
      ((s.map f).foldl (fun acc part => acc ++ part) init).length
        = init.length + k * s.length := by
  induction s with
  | nil => intro init; simp
  | cons c cs ih =>
    intro init
    rw [List.map_cons, List.foldl_cons, ih]
    simp [hf c]
    ring

/-- C2 (counterexample): the Blin encoding of a one-symbol sequence has 6
values (its per-symbol encoding is the Rausch triple followed by the Wold
triple), not 3 × 1. -/
theorem blin_encode_stride_six :
    (encode rausch.axis1 rausch.axis2 rausch.axis3 ['A'] .Blin).length = 6
      ∧ (6 : Nat) ≠ 3 * (['A'] : List Char).length := by decide

/-- C2 (amended): for every sequence, the Wold and Rausch encodings have
length 3 × |s|, but the Blin encoding has length 6 × |s| (3 Rausch values
followed by 3 Wold values per symbol), for every choice of Rausch axis
tables. -/
theorem encode_lengths (a1 a2 a3 : AxisTable) (s : List Char) :
    (encode a1 a2 a3 s .Wold).length = 3 * s.length
      ∧ (encode a1 a2 a3 s .Rausch).length = 3 * s.length
      ∧ (encode a1 a2 a3 s .Blin).length = 6 * s.length := by
  refine ⟨?_, ?_, ?_⟩
  · have := encode_fold_length (f := wold.encode_one) (k := 3) (fun c => rfl) s []
    simpa [encode, wold.encode] using this
  · have := encode_fold_length (f := rausch.encode_one a1 a2 a3) (k := 3)
      (fun c => rfl) s []
    simpa [encode, rausch.encode] using this
  · have := encode_fold_length (f := blin.encode_one a1 a2 a3) (k := 6)
      (fun c => rfl) s []
    simpa [encode, blin.encode] using this

@[simp]
theorem except_ok_bind (a : α) (f : α → Except NrpsError β) :
    (Except.ok a >>= f) = f a := rfl

theorem c5_list_eval :
    c5_list = [⟨"Leu", 42⟩, ⟨"Ile", 42⟩, ⟨"Ala", 23⟩, ⟨"D-Ala", 17⟩] := by
  norm_num [c5_list, PredictionList.add, List.mergeSort, List.merge]

theorem bestLoop_spec (q : Prediction) (cutoffIdx : Nat) :
    ∀ (rest acc : List Prediction), acc.get? cutoffIdx = some q →
      PredictionList.bestLoop cutoffIdx acc rest
        = some (acc ++ rest.takeWhile (fun p => decide (q.score ≤ p.score))) := by
  intro rest
  induction rest with
  | nil =>
    intro acc h
    simp [PredictionList.bestLoop]
  | cons p rs ih =>
    intro acc h
    simp only [PredictionList.bestLoop, h]
    by_cases hp : p.score < q.score
    · rw [if_pos hp, List.takeWhile_cons]
      have hd : decide (q.score ≤ p.score) = false := by
        simpa using not_le.mpr hp
      rw [hd]
      simp
    · rw [if_neg hp]
      have hlt : cutoffIdx < acc.length := by
        rcases List.get?_eq_some.mp h with ⟨hl, _⟩
        exact hl
      have h2 : (acc ++ [p]).get? cutoffIdx = some q := by
        rw [List.get?_append hlt]
        exact h
      rw [ih (acc ++ [p]) h2, List.takeWhile_cons]
      have hd : decide (q.score ≤ p.score) = true := by
        simpa using not_lt.mp hp
      rw [hd]
      simp

theorem takeWhile_eq_filter_sorted (q : Prediction) :
    ∀ s : List Prediction, List.Pairwise (fun a b => b.score ≤ a.score) s →
      s.takeWhile (fun p => decide (q.score ≤ p.score))
        = s.filter (fun p => decide (q.score ≤ p.score)) := by
  intro s
  induction s with
  | nil => intro _; rfl
  | cons p rs ih =>
    intro hs
    rw [List.pairwise_cons] at hs
    obtain ⟨h1, h2⟩ := hs
    by_cases hq : q.score ≤ p.score
    · rw [List.takeWhile_cons, List.filter_cons]
      simp [hq, ih h2]
    · have hfil : rs.filter (fun p => decide (q.score ≤ p.score)) = [] := by
        rw [List.filter_eq_nil]
        intro b hb
        simp only [decide_eq_true_eq]
        intro hqb
        exact hq (hqb.trans (h1 b hb))
      rw [List.takeWhile_cons, List.filter_cons]
      simp [hq, hfil]

/-- C5: on a descending-sorted prediction list (the invariant `add`
maintains) and any count `n` with `1 ≤ n < 2^64`, `get_best_n` returns the
first `n` entries followed by every subsequent entry whose score is not
strictly below the n-th entry's score; in particular on the repository's
test data with scores 42, 42, 23, 17, `get_best_n 1` returns both 42-scored
entries. -/
theorem get_best_n_spec (l : List Prediction) (n : Nat)
    (hs : List.Pairwise (fun a b => b.score ≤ a.score) l)
    (h1 : 1 ≤ n) (h2 : n < USIZE) :
    PredictionList.get_best_n l n
        = some (l.take n ++ (l.drop n).filter
            (fun p => Option.any (fun q => decide (q.score ≤ p.score)) (l.get? (n - 1))))
      ∧ PredictionList.get_best_n c5_list 1
          = some [⟨"Leu", 42⟩, ⟨"Ile", 42⟩] := by
  refine ⟨?_, by rw [c5_list_eval]; decide⟩
  cases l with
  | nil => simp [PredictionList.get_best_n]
  | cons x xs =>
    have hlen0 : ¬ ((x :: xs).length = 0) := by simp
    by_cases hn : n ≤ (x :: xs).length
    · have hmin : min n (x :: xs).length = n := min_eq_left hn
      have hidx : n - 1 < (x :: xs).length := by omega
      obtain ⟨q, hq⟩ : ∃ q, (x :: xs).get? (n - 1) = some q :=
        ⟨_, List.get?_eq_get hidx⟩
      have htake : ((x :: xs).take n).get? (n - 1) = some q := by
        rw [List.get?_take (by omega)]
        exact hq
      have hdropsorted :
          List.Pairwise (fun a b => b.score ≤ a.score) ((x :: xs).drop n) :=
        List.Pairwise.sublist (List.drop_sublist n (x :: xs)) hs
      simp only [PredictionList.get_best_n]
      rw [if_neg hlen0, hmin, usub1_of_pos h1 h2,
        bestLoop_spec q (n - 1) ((x :: xs).drop n) ((x :: xs).take n) htake,
        takeWhile_eq_filter_sorted q ((x :: xs).drop n) hdropsorted]
      simp only [hq, Option.any_some]
    · push_neg at hn
      have hmin : min n (x :: xs).length = (x :: xs).length :=
        min_eq_right (le_of_lt hn)
      simp only [PredictionList.get_best_n]
      rw [if_neg hlen0, hmin, List.take_length, List.drop_length]
      rw [List.take_all_of_le (le_of_lt hn), List.drop_eq_nil_of_le (le_of_lt hn)]
      simp [PredictionList.bestLoop]

/-- C5 (witness): the tie-inclusive rule applied to the repository's test
list with scores 42, 42, 23, 17 and count 1. -/
theorem get_best_n_spec_w :
    PredictionList.get_best_n c5_list 1
        = some (c5_list.take 1 ++ (c5_list.drop 1).filter
            (fun p => Option.any (fun q => decide (q.score ≤ p.score)) (c5_list.get? 0)))
      ∧ PredictionList.get_best_n c5_list 1
          = some [⟨"Leu", 42⟩, ⟨"Ile", 42⟩] :=
  get_best_n_spec c5_list 1 (by rw [c5_list_eval]; decide) (by decide) (by decide)

theorem foldlM_kernel
    (kernelEval : KernelImpl → SupportVector → List ℚ → Except NrpsError ℚ)
    (kern : KernelImpl) (vec : List ℚ) (g : SupportVector → ℚ) :
    ∀ vs : List SupportVector,
      (∀ sv ∈ vs, kernelEval kern sv vec = .ok (g sv)) → ∀ s : ℚ,
        (vs.foldlM
          (fun sum svec => do
            let k ← kernelEval kern svec vec
            pure (sum + svec.yalpha * k))
          s)
          = Except.ok (s + (vs.map (fun sv => sv.yalpha * g sv)).sum) := by
  intro vs
  induction vs with
  | nil =>
    intro _ s
    simp
    rfl
  | cons v vs ih =>
    intro h s
    rw [List.foldlM_cons]
    have hv := h v (List.mem_cons_self v vs)
    have htail := fun sv hsv => h sv (List.mem_cons_of_mem v hsv)
    rw [hv]
    simp only [except_ok_bind, pure_bind]
    rw [ih htail (s + v.yalpha * g v)]
    rw [List.map_cons, List.sum_cons, add_assoc]

/-- C7: for every model, encoding, domain and kernel evaluation that
succeeds on every support vector (which for both kernel kinds is exactly
the matching-dimension case), the classifier score is the weighted sum of
the kernel values minus the bias, and the per-(model, domain) predictor
step inserts a prediction carrying the model's name and category exactly
when that score is strictly positive. -/
theorem svm_predict_spec
    (kernelEval : KernelImpl → SupportVector → List ℚ → Except NrpsError ℚ)
    (enc : List Char → List ℚ) (m : SVMlightModel) (d : ADomain)
    (f : SupportVector → ℚ)
    (hk : ∀ sv ∈ m.vectors, kernelEval m.kernel sv (enc d.aa34) = .ok (f sv)) :
    m.predict kernelEval (enc d.aa34)
        = .ok ((m.vectors.map (fun sv => sv.yalpha * f sv)).sum - m.bias)
      ∧ Predictor.predict_step kernelEval enc m d
        = .ok
            (if 0 < (m.vectors.map (fun sv => sv.yalpha * f sv)).sum - m.bias
             then d.add m.category
               ⟨m.name, (m.vectors.map (fun sv => sv.yalpha * f sv)).sum - m.bias⟩
             else d) := by
  have hpred : m.predict kernelEval (enc d.aa34)
      = .ok ((m.vectors.map (fun sv => sv.yalpha * f sv)).sum - m.bias) := by
    unfold SVMlightModel.predict
    rw [foldlM_kernel kernelEval m.kernel (enc d.aa34) f m.vectors hk 0]
    simp
  refine ⟨hpred, ?_⟩
  unfold Predictor.predict_step
  rw [hpred]
  simp only [except_ok_bind]
  by_cases hpos : 0 < (m.vectors.map (fun sv => sv.yalpha * f sv)).sum - m.bias
  · rw [if_pos hpos, if_pos hpos]
    rfl
  · rw [if_neg hpos, if_neg hpos]
    rfl

/-- C7 (witness): a linear one-support-vector model with weight 1 and bias 0
against the query vector `[1, 2, 3]`: the kernel value is 4, the score is 4,
and since 4 > 0 the predictor step inserts the prediction. -/
theorem svm_predict_spec_w :
    SVMlightModel.predict linEval c7_model [1, 2, 3]
        = .ok ((c7_model.vectors.map (fun sv => sv.yalpha * 4)).sum - c7_model.bias)
      ∧ Predictor.predict_step linEval (fun _ => [1, 2, 3]) c7_model (ADomain.new "d" [])
        = .ok
            (if 0 < (c7_model.vectors.map (fun sv => sv.yalpha * 4)).sum - c7_model.bias
             then (ADomain.new "d" []).add c7_model.category
               ⟨c7_model.name,
                 (c7_model.vectors.map (fun sv => sv.yalpha * 4)).sum - c7_model.bias⟩
             else ADomain.new "d" []) :=
  svm_predict_spec linEval (fun _ => [1, 2, 3]) c7_model (ADomain.new "d" [])
    (fun _ => 4)
    (by
      intro sv hsv
      have hsv1 : sv = ⟨[1, 0, 1], 1⟩ := by simpa [c7_model] using hsv
      subst hsv1
      norm_num [linEval, computeLinear, dot])

theorem parse_usize_lt {s : List Char} {n : Nat} (h : parse_usize s = .ok n) :
    n < USIZE := by
  unfold parse_usize at h
  split at h
  · split at h
    · rename_i m _ hm
      injection h with h
      subst h
      exact hm
    · exact Except.noConfusion h
  · exact Except.noConfusion h

theorem tokenParses_elim {t : List Char} {p : Nat × ℚ}
    (h : tokenParses t p = true) :
    t ≠ ['#'] ∧ ∃ a b, splitn2 ':' t = [a, b]
      ∧ parse_usize a = .ok p.1 ∧ parse_f64 b = .ok p.2 := by
  unfold tokenParses at h
  rw [Bool.and_eq_true] at h
  obtain ⟨h1, h2⟩ := h
  refine ⟨by simpa using h1, ?_⟩
  rcases hsp : splitn2 ':' t with _ | ⟨a, _ | ⟨b, rest⟩⟩
  · rw [hsp] at h2; cases h2
  · rw [hsp] at h2; cases h2
  · cases rest with
    | nil =>
      rw [hsp] at h2
      rw [Bool.and_eq_true, decide_eq_true_eq, decide_eq_true_eq] at h2
      exact ⟨a, b, rfl, h2.1, h2.2⟩
    | cons c cs =>
      rw [hsp] at h2
      cases h2

theorem sv_loop_cons_pair (line : List Char) (d : Nat) (values : List ℚ)
    (t : List Char) (rest : List (List Char)) (a b : List Char) (n : Nat) (v : ℚ)
    (hhash : t ≠ ['#']) (hsp : splitn2 ':' t = [a, b])
    (hpa : parse_usize a = .ok n) (hpb : parse_f64 b = .ok v) :
    sv_loop line d values (t :: rest)
      = if usub1 n > usub1 d then Outcome.error (.InvalidFeatureLine line)
        else if usub1 n < values.length
          then sv_loop line d (values.set (usub1 n) v) rest
          else .panics := by
  simp only [sv_loop, if_neg hhash, hsp, hpa, hpb, Outcome.ofExcept_ok,
    Outcome.bind_ok]

theorem sv_loop_spec (line : List Char) (d : Nat) (hd1 : 1 ≤ d) (hd2 : d < USIZE) :
    ∀ (toks : List (List Char)) (pairs : List (Nat × ℚ)),
      List.Forall₂ (fun t p => tokenParses t p = true) toks pairs →
      ∀ values : List ℚ, values.length = d →
      ((∃ p ∈ pairs, p.1 = 0 ∨ d < p.1)
          → sv_loop line d values toks = .error (.InvalidFeatureLine line))
        ∧ ((∀ p ∈ pairs, 1 ≤ p.1 ∧ p.1 ≤ d)
          → ∃ vs, sv_loop line d values toks = .ok vs ∧ vs.length = d
              ∧ ∀ i, i < d → (∀ p ∈ pairs, p.1 ≠ i + 1)
                → vs.get? i = values.get? i) := by
  have hU : 2 ≤ USIZE := by norm_num [USIZE]
  intro toks pairs hf
  induction hf with
  | nil =>
    intro values hv
    constructor
    · rintro ⟨p, hp, _⟩
      cases hp
    · intro _
      exact ⟨values, rfl, hv, fun i _ _ => rfl⟩
  | @cons t p toks' pairs' ht hrest ih =>
    intro values hv
    obtain ⟨hhash, a, b, hsp, hpa, hpb⟩ := tokenParses_elim ht
    have hplt : p.1 < USIZE := parse_usize_lt hpa
    rw [sv_loop_cons_pair line d values t toks' a b p.1 p.2 hhash hsp hpa hpb]
    by_cases hout : p.1 = 0 ∨ d < p.1
    · have hcond : usub1 p.1 > usub1 d := by
        rw [usub1_of_pos hd1 hd2]
        rcases hout with h0 | hgt
        · rw [h0, usub1_zero]
          omega
        · rw [usub1_of_pos (by omega) hplt]
          omega
      rw [if_pos hcond]
      constructor
      · intro _
        rfl
      · intro hall
        have := hall p (List.mem_cons_self p pairs')
        omega
    · push_neg at hout
      obtain ⟨hp0, hpd⟩ := hout
      have hp1 : 1 ≤ p.1 := by omega
      have hidx : usub1 p.1 = p.1 - 1 := usub1_of_pos hp1 hplt
      have hcond : ¬ (usub1 p.1 > usub1 d) := by
        rw [usub1_of_pos hd1 hd2, hidx]
        omega
      rw [if_neg hcond]
      have hlt : usub1 p.1 < values.length := by
        rw [hidx, hv]
        omega
      rw [if_pos hlt]
      have hv' : (values.set (usub1 p.1) p.2).length = d := by
        rw [List.length_set]
        exact hv
      obtain ⟨ih1, ih2⟩ := ih (values.set (usub1 p.1) p.2) hv'
      constructor
      · rintro ⟨q, hq, hqout⟩
        rcases List.mem_cons.mp hq with rfl | hq'
        · omega
        · exact ih1 ⟨q, hq', hqout⟩
      · intro hall
        obtain ⟨vs, hvs, hlen, hpres⟩ :=
          ih2 (fun q hq => hall q (List.mem_cons_of_mem p hq))
        refine ⟨vs, hvs, hlen, ?_⟩
        intro i hi hnone
        have hp_ne : p.1 ≠ i + 1 := hnone p (List.mem_cons_self p pairs')
        rw [hpres i hi (fun q hq => hnone q (List.mem_cons_of_mem p hq))]
        have hne_idx : usub1 p.1 ≠ i := by
          rw [hidx]
          omega
        rw [List.get?_eq_getElem?, List.get?_eq_getElem?,
          List.getElem?_set_ne hne_idx]

unseal Rat.add Rat.sub Rat.mul Rat.inv in
/-- C8 (counterexample): with declared dimension 0, the well-formed pair
`1:2.0` — whose 1-based index 1 lies outside `[1, 0]` — makes `from_line`
panic (the wrapped index passes the `idx > dimension - 1` check and the
store is out of bounds), instead of raising a fatal parse error. -/
theorem from_line_dim_zero_panics :
    tokenParses "1:2.0".toList ((1 : Nat), (2 : ℚ)) = true
      ∧ SupportVector.from_line c8_line 0 = .panics := by
  constructor
  · decide
  · decide

/-- C8 (amended): for every declared dimension `d` with `1 ≤ d < 2^64` and
every support-vector line of well-formed `idx:val` pairs, a pair whose
1-based index lies outside `[1, d]` — including index 0 — makes parsing
fail with a fatal `InvalidFeatureLine` error, and when all indices lie in
`[1, d]` the resulting dense vector has length `d` with every index not
present in the line defaulted to 0.0; for `d = 0`, however, any pair makes
the parser panic rather than fail. -/
theorem from_line_amended (line wtok : List Char) (toks : List (List Char))
    (w : ℚ) (pairs : List (Nat × ℚ)) (d : Nat)
    (hd1 : 1 ≤ d) (hd2 : d < USIZE)
    (hsplit : splitOnP (fun c => c.isWhitespace) line = wtok :: toks)
    (hw : parse_f64 wtok = .ok w)
    (htoks : List.Forall₂ (fun t p => tokenParses t p = true) toks pairs)
    (hne : toks ≠ []) :
    ((∃ p ∈ pairs, p.1 = 0 ∨ d < p.1)
        → SupportVector.from_line line d = .error (.InvalidFeatureLine line))
      ∧ ((∀ p ∈ pairs, 1 ≤ p.1 ∧ p.1 ≤ d)
        → ∃ vs, SupportVector.from_line line d = .ok ⟨vs, w⟩
            ∧ vs.length = d
            ∧ ∀ i, i < d → (∀ p ∈ pairs, p.1 ≠ i + 1) → vs.get? i = some 0) := by
  have hlen2 : ¬ ((wtok :: toks).length < 2) := by
    cases toks with
    | nil => exact absurd rfl hne
    | cons x xs => simp
  obtain ⟨h1, h2⟩ := sv_loop_spec line d hd1 hd2 toks pairs htoks
    (List.replicate d 0) (by simp)
  unfold SupportVector.from_line
  rw [hsplit, if_neg hlen2]
  simp only [List.headD_cons, List.tail_cons, hw, Outcome.ofExcept_ok,
    Outcome.bind_ok]
  constructor
  · intro hex
    rw [h1 hex]
    rfl
  · intro hall
    obtain ⟨vs, hvs, hlen, hpres⟩ := h2 hall
    refine ⟨vs, ?_, hlen, ?_⟩
    · rw [hvs]
      rfl
    · intro i hi hnp
      rw [hpres i hi hnp, List.get?_eq_getElem?, List.getElem?_replicate,
        if_pos (hlen ▸ hi)]

unseal Rat.add Rat.sub Rat.mul Rat.inv in
/-- C8 (witness): the amended theorem applied to the repository's own test
line (without its trailing comment) at dimension 5: all indices lie in
[1, 5], the vector has length 5, and the absent indices 2 and 4 default to
0.0. -/
theorem from_line_amended_w :
    ((∃ p ∈ [((1 : Nat), -(16023999 / 10 ^ 7 : ℚ)), (3, -(27735001 / 5 / 10 ^ 7 : ℚ)),
        (5, -(31760001 / 5 / 10 ^ 7 : ℚ))], p.1 = 0 ∨ 5 < p.1)
        → SupportVector.from_line c8_ok_line 5
            = .error (.InvalidFeatureLine c8_ok_line))
      ∧ ((∀ p ∈ [((1 : Nat), -(16023999 / 10 ^ 7 : ℚ)), (3, -(27735001 / 5 / 10 ^ 7 : ℚ)),
            (5, -(31760001 / 5 / 10 ^ 7 : ℚ))], 1 ≤ p.1 ∧ p.1 ≤ 5)
        → ∃ vs, SupportVector.from_line c8_ok_line 5 = .ok ⟨vs, 10⟩
            ∧ vs.length = 5
            ∧ ∀ i, i < 5 →
              (∀ p ∈ [((1 : Nat), -(16023999 / 10 ^ 7 : ℚ)), (3, -(27735001 / 5 / 10 ^ 7 : ℚ)),
                  (5, -(31760001 / 5 / 10 ^ 7 : ℚ))], p.1 ≠ i + 1)
              → vs.get? i = some 0) :=
  from_line_amended c8_ok_line "10".toList
    ["1:-1.6023999".toList, "3:-0.55470002".toList, "5:-0.63520002".toList]
    10
    [((1 : Nat), -(16023999 / 10 ^ 7 : ℚ)), (3, -(27735001 / 5 / 10 ^ 7 : ℚ)),
      (5, -(31760001 / 5 / 10 ^ 7 : ℚ))]
    5
    (by norm_num) (by norm_num [USIZE]) (by decide) (by decide)
    (List.Forall₂.cons (by decide)
      (List.Forall₂.cons (by decide)
        (List.Forall₂.cons (by decide) List.Forall₂.nil)))
    (by decide)
@[simp]
theorem except_pure (a : α) : (pure a : Except NrpsError α) = .ok a := rfl

@[simp]
theorem except_error_bind (e : NrpsError) (f : α → Except NrpsError β) :
    (Except.error e >>= f) = .error e := rfl

@[simp]
theorem Outcome.pure_eq (a : α) : (pure a : Outcome α) = .ok a := rfl

theorem parse_int_ln_ok {lines : List (List Char)} {n : Nat}
    {rest : List (List Char)} (h : parse_int_ln lines = .ok (n, rest)) :
    lines.length = rest.length + 1 := by
  cases lines with
  | nil => simp [parse_int_ln] at h
  | cons l ls =>
    simp only [parse_int_ln] at h
    cases hp : parse_usize (trimBoth ((splitn2 '#' (rtrim l)).headD [])) with
    | error e => rw [hp] at h; simp at h
    | ok v =>
      rw [hp] at h
      simp only [except_ok_bind, except_pure, Except.ok.injEq,
        Prod.mk.injEq] at h
      obtain ⟨rfl, rfl⟩ := h
      simp

theorem parse_float_ln_ok {lines : List (List Char)} {v : ℚ}
    {rest : List (List Char)} (h : parse_float_ln lines = .ok (v, rest)) :
    lines.length = rest.length + 1 := by
  cases lines with
  | nil => simp [parse_float_ln] at h
  | cons l ls =>
    simp only [parse_float_ln] at h
    cases hp : parse_f64 (trimBoth ((splitn2 '#' (rtrim l)).headD [])) with
    | error e => rw [hp] at h; simp at h
    | ok w =>
      rw [hp] at h
      simp only [except_ok_bind, except_pure, Except.ok.injEq,
        Prod.mk.injEq] at h
      obtain ⟨rfl, rfl⟩ := h
      simp

theorem read_vectors_ok {d : Nat} :
    ∀ {lines : List (List Char)} {svs : List SupportVector},
      read_vectors d lines = .ok svs → svs.length = lines.length := by
  intro lines
  induction lines with
  | nil =>
    intro svs h
    simp only [read_vectors, Outcome.ok.injEq] at h
    subst h
    rfl
  | cons l ls ih =>
    intro svs h
    simp only [read_vectors] at h
    cases hf : SupportVector.from_line l d with
    | panics => rw [hf] at h; simp at h
    | error e => rw [hf] at h; simp at h
    | ok sv =>
      rw [hf] at h
      simp only [Outcome.bind_ok] at h
      cases hr : read_vectors d ls with
      | panics => rw [hr] at h; simp at h
      | error e => rw [hr] at h; simp at h
      | ok svs' =>
        rw [hr] at h
        simp only [Outcome.bind_ok, Outcome.pure_eq, Outcome.ok.injEq] at h
        subst h
        simp [ih hr]

theorem new_vectors {name : String} {category : PredictionCategory}
    {vecs : List SupportVector} {bias : ℚ} {encoding : FeatureEncoding}
    {kt : KernelType} {gamma : ℚ} {mm : SVMlightModel}
    (h : SVMlightModel.new name category vecs bias encoding kt gamma = some mm) :
    mm.vectors = vecs := by
  unfold SVMlightModel.new at h
  cases kt with
  | Linear =>
    simp only [Option.some.injEq] at h
    subst h
    rfl
  | RBF =>
    simp only [Option.some.injEq] at h
    subst h
    rfl
  | Polynomial => exact Option.noConfusion h
  | Sigmoid => exact Option.noConfusion h
  | Custom => exact Option.noConfusion h

theorem from_handle_tail_ok (lines2 : List (List Char)) (name : String)
    (category : PredictionCategory) (encoding : FeatureEncoding)
    (kt : KernelType) (m : SVMlightModel)
    (h : (do
        let lines3 := lines2.drop 1
        let (gamma, lines4) ← Outcome.ofExcept (parse_float_ln lines3)
        let lines5 := lines4.drop 3
        let (dimensions, lines6) ← Outcome.ofExcept (parse_int_ln lines5)
        let lines7 := lines6.drop 1
        let (num_vecs, lines8) ← Outcome.ofExcept (parse_int_ln lines7)
        let (bias, lines9) ← Outcome.ofExcept (parse_float_ln lines8)
        let _capacity := num_vecs
        let vectors ← read_vectors dimensions lines9
        match SVMlightModel.new name category vectors bias encoding kt gamma with
        | some mm => pure mm
        | none => Outcome.panics : Outcome SVMlightModel) = .ok m) :
    m.vectors.length + 9 = lines2.length := by
  dsimp only [] at h
  cases h2 : parse_float_ln (lines2.drop 1) with
  | error e => rw [h2] at h; simp at h
  | ok p2 =>
    rw [h2] at h
    simp only [Outcome.ofExcept_ok, Outcome.bind_ok] at h
    obtain ⟨gamma, lines4⟩ := p2
    have e2 := parse_float_ln_ok h2
    cases h3 : parse_int_ln (lines4.drop 3) with
    | error e => rw [h3] at h; simp at h
    | ok p3 =>
      rw [h3] at h
      simp only [Outcome.ofExcept_ok, Outcome.bind_ok] at h
      obtain ⟨dimensions, lines6⟩ := p3
      have e3 := parse_int_ln_ok h3
      cases h4 : parse_int_ln (lines6.drop 1) with
      | error e => rw [h4] at h; simp at h
      | ok p4 =>
        rw [h4] at h
        simp only [Outcome.ofExcept_ok, Outcome.bind_ok] at h
        obtain ⟨num_vecs, lines8⟩ := p4
        have e4 := parse_int_ln_ok h4
        cases h5 : parse_float_ln lines8 with
        | error e => rw [h5] at h; simp at h
        | ok p5 =>
          rw [h5] at h
          simp only [Outcome.ofExcept_ok, Outcome.bind_ok] at h
          obtain ⟨bias, lines9⟩ := p5
          have e5 := parse_float_ln_ok h5
          cases h6 : read_vectors dimensions lines9 with
          | panics => rw [h6] at h; simp at h
          | error e => rw [h6] at h; simp at h
          | ok vecs =>
            rw [h6] at h
            simp only [Outcome.bind_ok] at h
            have e6 := read_vectors_ok h6
            cases hn : SVMlightModel.new name category vecs bias encoding kt gamma with
            | none => rw [hn] at h; exact Outcome.noConfusion h
            | some mm =>
              rw [hn] at h
              simp only [Outcome.pure_eq, Outcome.ok.injEq] at h
              subst h
              have e7 := new_vectors hn
              have d1 : (lines2.drop 1).length = lines2.length - 1 :=
                List.length_drop 1 lines2
              have d3 : (lines4.drop 3).length = lines4.length - 3 :=
                List.length_drop 3 lines4
              have d6 : (lines6.drop 1).length = lines6.length - 1 :=
                List.length_drop 1 lines6
              rw [e7]
              omega

unseal Rat.add Rat.sub Rat.mul Rat.inv in
/-- C9 (counterexample): a model stream whose support-vector-count line
declares 2 but that ends right after the bias line loads successfully as a
model with 0 support vectors, instead of failing with a parse error. -/
theorem from_handle_short_stream_ok :
    c9_lines.get? 9 = some "2 # number of support vectors plus 1".toList
      ∧ SVMlightModel.from_handle c9_lines "m" .ThreeCluster .Wold
          = .ok ⟨"m", .ThreeCluster, [], 1 / 10, .Wold, .Linear, .linear⟩
      ∧ (0 : Nat) ≠ 2 := by
  refine ⟨by decide, ?_, by decide⟩
  decide

/-- C9 (amended): the declared support-vector count is used only as a
capacity hint; `from_handle` reads every remaining line after the 11
header lines as a support vector and never compares the result against the
declared count, so a stream that ends early (or late) still loads: every
successfully loaded model has exactly one support vector per line beyond
the 11 header lines. -/
theorem from_handle_amended (lines : List (List Char)) (name : String)
    (category : PredictionCategory) (encoding : FeatureEncoding)
    (m : SVMlightModel)
    (h : SVMlightModel.from_handle lines name category encoding = .ok m) :
    m.vectors.length + 11 = lines.length := by
  unfold SVMlightModel.from_handle at h
  dsimp only [] at h
  cases h1 : parse_int_ln (lines.drop 1) with
  | error e => rw [h1] at h; simp at h
  | ok p1 =>
    rw [h1] at h
    simp only [Outcome.ofExcept_ok, Outcome.bind_ok] at h
    obtain ⟨ktcode, lines2⟩ := p1
    have e1 := parse_int_ln_ok h1
    have e0 : (lines.drop 1).length = lines.length - 1 :=
      List.length_drop 1 lines
    rcases ktcode with _ | _ | _ | k
    · simp only [Outcome.pure_eq, Outcome.bind_ok] at h
      have := from_handle_tail_ok lines2 name category encoding KernelType.Linear m h
      omega
    · simp at h
    · simp only [Outcome.pure_eq, Outcome.bind_ok] at h
      have := from_handle_tail_ok lines2 name category encoding KernelType.RBF m h
      omega
    · simp at h

unseal Rat.add Rat.sub Rat.mul Rat.inv in
/-- C9 (witness): the amended theorem applied to the 11-line stream of the
counterexample: the loaded model has 0 support vectors and 0 + 11 = 11
lines. -/
theorem from_handle_amended_w :
    (⟨"m", .ThreeCluster, [], 1 / 10, .Wold, .Linear,
        .linear⟩ : SVMlightModel).vectors.length + 11 = c9_lines.length :=
  from_handle_amended c9_lines "m" .ThreeCluster .Wold
    ⟨"m", .ThreeCluster, [], 1 / 10, .Wold, .Linear, .linear⟩ (by decide)

end NrpsRs
